import Mathlib

/-!
# OpenReports `reports-api`: report results, resource strings, severity ranks

A shallow embedding of the behaviour-bearing part of the repository:

* `apis/openreports.io/v1alpha1/common.go`: the status and severity constants,
  the `SeverityLevel` table, the `ReportResult` accessors `GetResource`,
  `HasResource`, `GetKind`, `GetID`, `ResourceString`, and `ToResourceString`;
* `policy-report/apis/reports.x-k8s.io/v1beta2/policyreport_types.go`: the
  `ReportSummary`, `ReportResult`, `Limits`, `ReportConfiguration` and `Report`
  record types.

Conventions of the embedding.

* A Go `string` is a Lean `String` (a list of code points). Emptiness tests,
  concatenation and `fmt.Sprintf("%s/%s", a, b)` act on it as `a ++ "/" ++ b`.
* `strings.ToLower` belongs to the Go standard library. On valid UTF-8 it maps
  `unicode.ToLower` over the runes of its argument, so it is embedded as
  `ToLower lower s`, the code-point-wise image of `s` under a rune mapping
  `lower : Char → Char` taken as a parameter. General statements hold for
  every `lower`; concrete evaluations state what they need of it.
* A Go pointer that may be `nil` is an `Option`; a run-time panic is an
  `Except.error`.
* A Go `map[string]int` literal is its list of entries in source order, and
  `m[k]` is `mapIndex m k`.
* Go `int` fields are unbounded `Int`s; no arithmetic is performed on them.
-/

namespace OpenReports

/-! ## Strings -/

/-- The string `s` begins with the string `p` (Go `strings.HasPrefix s p`). -/
def StartsWith (s p : String) : Prop := p.data <+: s.data

/-- The string `s` ends with the string `p` (Go `strings.HasSuffix s p`). -/
def EndsWith (s p : String) : Prop := p.data <:+ s.data

/-- The string `p` occurs in the string `s` (Go `strings.Contains s p`). -/
def Contains (s p : String) : Prop := p.data <:+: s.data

/-- No leading `/`, no trailing `/` and no doubled `/` in `s`. -/
def SlashClean (s : String) : Prop :=
  ¬ StartsWith s "/" ∧ ¬ EndsWith s "/" ∧ ¬ Contains s "//"

instance (s p : String) : Decidable (StartsWith s p) := by
  unfold StartsWith; infer_instance

instance (s p : String) : Decidable (EndsWith s p) := by
  unfold EndsWith; infer_instance

instance (s p : String) : Decidable (Contains s p) := by
  unfold Contains; infer_instance

instance (s : String) : Decidable (SlashClean s) := by
  unfold SlashClean; infer_instance

/-- Two adjacent code points are not both `/`. -/
abbrev NotBothSlash (x y : Char) : Prop := ¬ (x = '/' ∧ y = '/')

/-- List form of `SlashClean`. -/
abbrev CleanChars (l : List Char) : Prop :=
  ¬ ['/'] <+: l ∧ ¬ ['/'] <:+ l ∧ ¬ ['/', '/'] <:+: l

/-- Go `strings.ToLower` over a rune mapping `lower` (`unicode.ToLower`):
every code point of `s` is replaced by its image, order and length kept. -/
def ToLower (lower : Char → Char) (s : String) : String :=
  String.mk (s.data.map lower)

/-! ## `k8s.io/api/core/v1`, `k8s.io/apimachinery/pkg/apis/meta/v1` records -/

/-- The record `corev1.ObjectReference`: seven string fields, all optional
(empty when unset). -/
structure ObjectReference where
  Kind : String := ""
  Namespace : String := ""
  Name : String := ""
  UID : String := ""
  APIVersion : String := ""
  ResourceVersion : String := ""
  FieldPath : String := ""
deriving DecidableEq, Repr

/-- The record `metav1.Timestamp`: seconds and nanoseconds. -/
structure Timestamp where
  Seconds : Int := 0
  Nanos : Int := 0
deriving DecidableEq, Repr

/-- The record `metav1.LabelSelectorRequirement`. -/
structure LabelSelectorRequirement where
  Key : String := ""
  Operator : String := ""
  Values : List String := []
deriving DecidableEq, Repr

/-- The record `metav1.LabelSelector`: criteria only, never evaluated here. -/
structure LabelSelector where
  MatchLabels : List (String × String) := []
  MatchExpressions : List LabelSelectorRequirement := []
deriving DecidableEq, Repr

/-! ## `common.go`: constants -/

/-- Go `type Result string`. -/
abbrev Result := String

/-- Go `type ResultSeverity string`. -/
abbrev ResultSeverity := String

/-- Go `type StatusFilter string`. -/
abbrev StatusFilter := String

def StatusPass : String := "pass"
def StatusFail : String := "fail"
def StatusWarn : String := "warn"
def StatusError : String := "error"
def StatusSkip : String := "skip"

def SeverityCritical : String := "critical"
def SeverityHigh : String := "high"
def SeverityMedium : String := "medium"
def SeverityLow : String := "low"
def SeverityInfo : String := "info"

/-- The table `SeverityLevel` of `common.go`, entries in source order. -/
def SeverityLevel : List (ResultSeverity × Int) :=
  [ ("", -1),
    (SeverityInfo, 0),
    (SeverityLow, 1),
    (SeverityMedium, 2),
    (SeverityHigh, 3),
    (SeverityCritical, 4) ]

/-- Go `m[k]` on a `map[string]int`: the value stored under `k`, and the zero
value `0` when `k` is not a key of `m`. -/
def mapIndex (m : List (String × Int)) (k : String) : Int :=
  match m.lookup k with
  | some v => v
  | none => 0

/-- The keys of a map literal, in source order. -/
def mapKeys (m : List (String × Int)) : List String :=
  m.map Prod.fst

/-! ## `policyreport_types.go`: records -/

/-- The record `Limits`. -/
structure Limits where
  MaxResults : Int := 0
  StatusFilter : List StatusFilter := []
deriving DecidableEq, Repr

/-- The record `ReportSummary`: five Go `int` fields. -/
structure ReportSummary where
  Pass : Int := 0
  Fail : Int := 0
  Warn : Int := 0
  Error : Int := 0
  Skip : Int := 0
deriving DecidableEq, Repr

/-- The record `ReportResult` of `policyreport_types.go`, with the `ID` field
that `GetID` of `common.go` reads. `Subjects` is the Go slice
`[]corev1.ObjectReference`, `ResourceSelector` a pointer that may be `nil`,
`Properties` a `map[string]string`. -/
structure ReportResult where
  ID : String := ""
  Source : String := ""
  Policy : String := ""
  Rule : String := ""
  Category : String := ""
  Severity : ResultSeverity := ""
  Timestamp : Timestamp := {}
  Result : Result := ""
  Scored : Bool := false
  Subjects : List ObjectReference := []
  ResourceSelector : Option LabelSelector := none
  Description : String := ""
  Properties : List (String × String) := []
deriving DecidableEq, Repr

/-- The record `ReportConfiguration`. -/
structure ReportConfiguration where
  Limits : Limits := {}
deriving DecidableEq, Repr

/-- The record `metav1.TypeMeta`. -/
structure TypeMeta where
  Kind : String := ""
  APIVersion : String := ""
deriving DecidableEq, Repr

/-- The record `metav1.ObjectMeta`, by its identifying fields; nothing in the
source files reads them. -/
structure ObjectMeta where
  Name : String := ""
  GenerateName : String := ""
  Namespace : String := ""
  UID : String := ""
  ResourceVersion : String := ""
  Generation : Int := 0
  Labels : List (String × String) := []
  Annotations : List (String × String) := []
deriving DecidableEq, Repr

/-- The record `Report` of `policyreport_types.go`: `Scope`, `ScopeSelector`
and `Configuration` are pointers that may be `nil`; `Summary` and `Results`
are two plain fields, stored side by side. -/
structure Report where
  TypeMeta : TypeMeta := {}
  ObjectMeta : ObjectMeta := {}
  Source : String := ""
  Scope : Option ObjectReference := none
  ScopeSelector : Option LabelSelector := none
  Configuration : Option ReportConfiguration := none
  Summary : ReportSummary := {}
  Results : List ReportResult := []
deriving DecidableEq, Repr

/-! ## `common.go`: accessors and formatting -/

/-- A Go run-time panic. -/
inductive Panic where
  | nilPointerDereference
  | indexOutOfRange
deriving DecidableEq, Repr

/-- Go `(*ReportResult).GetResource`: `nil` when `len(r.Subjects) == 0`,
otherwise the address of `r.Subjects[0]`; the index is in range by the test
before it. -/
def ReportResult.GetResource (r : ReportResult) : Option ObjectReference :=
  if h : r.Subjects.length = 0 then none
  else some (r.Subjects.get ⟨0, Nat.pos_of_ne_zero h⟩)

/-- Go `(*ReportResult).HasResource`: `len(r.Subjects) > 0`. -/
def ReportResult.HasResource (r : ReportResult) : Bool :=
  decide (r.Subjects.length > 0)

/-- Go `(*ReportResult).GetKind`. The selector `r.GetResource().Kind`
dereferences the returned pointer and panics when that pointer is `nil`. -/
def ReportResult.GetKind (r : ReportResult) : Except Panic String :=
  if !r.HasResource then Except.ok ""
  else
    match r.GetResource with
    | none => Except.error Panic.nilPointerDereference
    | some res => Except.ok res.Kind

/-- Go `(*ReportResult).GetID`. -/
def ReportResult.GetID (r : ReportResult) : String :=
  r.ID

/-- Go `ToResourceString`, on the record its argument points to. -/
def ToResourceString (lower : Char → Char) (res : ObjectReference) : String :=
  let resource := ""
  let resource := if res.Namespace ≠ "" then res.Namespace else resource
  let resource :=
    if res.Kind ≠ "" ∧ resource ≠ "" then resource ++ "/" ++ ToLower lower res.Kind
    else if res.Kind ≠ "" then ToLower lower res.Kind
    else resource
  let resource :=
    if res.Name ≠ "" ∧ resource ≠ "" then resource ++ "/" ++ res.Name
    else if res.Name ≠ "" then res.Name
    else resource
  resource

/-- Go `(*ReportResult).ResourceString`. `ToResourceString` reads
`res.Namespace` first and panics there when handed a `nil` pointer. -/
def ReportResult.ResourceString (lower : Char → Char) (r : ReportResult) :
    Except Panic String :=
  if !r.HasResource then Except.ok ""
  else
    match r.GetResource with
    | none => Except.error Panic.nilPointerDereference
    | some res => Except.ok (ToResourceString lower res)

/-! ## Summary aggregation -/

/-- The closed set of statuses: pass, fail, warn, error, skip. -/
def statuses : List Result :=
  [StatusPass, StatusFail, StatusWarn, StatusError, StatusSkip]

/-- The integer `n` fits a Go `int` (64 bits, signed). -/
def fitsGoInt (n : Int) : Prop :=
  -(2 : Int) ^ 63 ≤ n ∧ n < (2 : Int) ^ 63

instance (n : Int) : Decidable (fitsGoInt n) := by
  unfold fitsGoInt; infer_instance

/-! ## Sample values -/

/-- A summary whose pass count is negative. -/
def negativeSummary : ReportSummary :=
  { Pass := -1, Fail := 0, Warn := 0, Error := 0, Skip := 0 }

/-- Four results with the statuses pass, fail, pass, skip. -/
def sampleResults : List ReportResult :=
  [ { Policy := "p1", Result := StatusPass },
    { Policy := "p2", Result := StatusFail },
    { Policy := "p3", Result := StatusPass },
    { Policy := "p4", Result := StatusSkip } ]

/-- A report that holds `sampleResults` next to the all-zero summary. -/
def inconsistentReport : Report :=
  { Source := "engine",
    Summary := { Pass := 0, Fail := 0, Warn := 0, Error := 0, Skip := 0 },
    Results := sampleResults }

/-- A result with two subjects, the first one `ns1`, `Pod`, `foo`. -/
def sampleResult : ReportResult :=
  { Policy := "require-labels",
    Result := "fail",
    Subjects := [{ Namespace := "ns1", Kind := "Pod", Name := "foo" },
                 { Namespace := "ns2", Kind := "Service", Name := "bar" }] }

/-- A result that names a policy and no subject. -/
def sampleScopeResult : ReportResult :=
  { Policy := "require-labels", Result := "pass" }

/-- A result whose only subject has every field empty. -/
def sampleBlankResult : ReportResult :=
  { Policy := "require-labels", Result := "pass", Subjects := [{}] }

/-! ## Specification-side definitions -/

/-- The non-empty entries of `[namespace, lowercase(kind), name]`, in that
order. -/
def nonEmptyComponents (lower : Char → Char) (res : ObjectReference) : List String :=
  [res.Namespace, ToLower lower res.Kind, res.Name].filter (fun s => s ≠ "")

/-- The pieces of `s` between its `/` separators, in order; the empty string
has no piece. -/
def splitSlash (s : String) : List String :=
  if s = "" then [] else (s.data.splitOn '/').map String.mk

/-- The number of `/` in `s` (Go `strings.Count s "/"`). -/
def countSlash (s : String) : Nat :=
  s.data.count '/'

/-- The resource string as the specification words it: the non-empty entries
of `[namespace, lowercase(kind), name]`, in that order, joined by `/`. -/
def joinNonEmpty (lower : Char → Char) (res : ObjectReference) : String :=
  String.intercalate "/"
    ([res.Namespace, ToLower lower res.Kind, res.Name].filter (fun s => s ≠ ""))


/-! ## Lemmas on strings -/

theorem ToLower_eq_empty (lower : Char → Char) (s : String) :
    ToLower lower s = "" ↔ s = "" := by
  cases s with
  | mk l => cases l <;> simp [ToLower, String.ext_iff]

theorem append_slash_eq_empty (a c : String) : (a ++ "/" ++ c = "") ↔ False := by
  simp [String.ext_iff]

theorem ToResourceString_eq_join (lower : Char → Char) (res : ObjectReference) :
    ToResourceString lower res = joinNonEmpty lower res := by
  unfold ToResourceString joinNonEmpty
  by_cases hn : res.Namespace = "" <;> by_cases hk : res.Kind = "" <;>
    by_cases hm : res.Name = "" <;>
    simp [hn, hk, hm, ToLower_eq_empty, String.intercalate, String.intercalate.go,
      List.filter, append_slash_eq_empty]

theorem ToLower_Pod (lower : Char → Char)
    (hP : lower 'P' = 'p') (ho : lower 'o' = 'o') (hd : lower 'd' = 'd') :
    ToLower lower "Pod" = "pod" := by
  show String.mk (List.map lower ['P', 'o', 'd']) = String.mk ['p', 'o', 'd']
  simp [hP, ho, hd]

theorem ToResourceString_fields (lower : Char → Char) (res : ObjectReference)
    (ns kind name : String)
    (hn : res.Namespace = ns) (hk : res.Kind = kind) (hm : res.Name = name) :
    ToResourceString lower res =
      ToResourceString lower { Namespace := ns, Kind := kind, Name := name } := by
  subst hn hk hm
  rfl

theorem slash_prefix_iff (l : List Char) : ['/'] <+: l ↔ l.head? = some '/' := by
  cases l with
  | nil => simp
  | cons a t => simp [List.cons_prefix_cons, eq_comm]

theorem slash_suffix_iff (l : List Char) : ['/'] <:+ l ↔ l.getLast? = some '/' := by
  rw [← List.reverse_prefix, ← List.head?_reverse]
  simpa using slash_prefix_iff l.reverse

theorem no_double_iff_chain (l : List Char) :
    ¬ ['/', '/'] <:+: l ↔ List.Chain' NotBothSlash l := by
  constructor
  · intro h
    induction l with
    | nil => exact List.chain'_nil
    | cons a t ih =>
      have ht : ¬ ['/', '/'] <:+: t := fun hi => h (hi.trans (List.IsSuffix.isInfix (List.suffix_cons a t)))
      rw [List.chain'_cons']
      refine ⟨?_, ih ht⟩
      intro y hy
      cases t with
      | nil => simp at hy
      | cons b u =>
        simp only [List.head?_cons, Option.mem_def, Option.some.injEq] at hy
        subst hy
        rintro ⟨rfl, rfl⟩
        exact h ⟨[], u, rfl⟩
  · intro h hi
    have := List.Chain'.infix h hi
    simp [NotBothSlash] at this

theorem cleanChars_iff (l : List Char) :
    CleanChars l ↔
      l.head? ≠ some '/' ∧ l.getLast? ≠ some '/' ∧ List.Chain' NotBothSlash l := by
  unfold CleanChars
  rw [slash_prefix_iff, slash_suffix_iff, no_double_iff_chain]

theorem cleanChars_nil : CleanChars [] := by
  rw [cleanChars_iff]; simp

theorem cleanChars_join (a b : List Char) (ha : a ≠ []) (hb : b ≠ []) :
    CleanChars (a ++ '/' :: b) ↔ CleanChars a ∧ CleanChars b := by
  simp only [cleanChars_iff]
  have h1 : (a ++ '/' :: b).head? = a.head? := by
    cases a with
    | nil => exact absurd rfl ha
    | cons x t => rfl
  have h2 : (a ++ '/' :: b).getLast? = b.getLast? := by
    rw [List.getLast?_append_of_ne_nil _ (by simp)]
    cases b with
    | nil => exact absurd rfl hb
    | cons y u => simp [List.getLast?_cons_cons]
  rw [h1, h2, List.chain'_append, List.chain'_cons']
  constructor
  · rintro ⟨p, q, ca, ⟨cb1, cb2⟩, cab⟩
    refine ⟨⟨p, ?_, ca⟩, ⟨?_, q, cb2⟩⟩
    · intro hl
      exact cab _ hl '/' (by simp) ⟨rfl, rfl⟩
    · intro hh
      exact cb1 _ hh ⟨rfl, rfl⟩
  · rintro ⟨⟨p, pl, ca⟩, ⟨qh, q, cb⟩⟩
    refine ⟨p, q, ca, ⟨?_, cb⟩, ?_⟩
    · intro y hy hxy
      exact qh (by rw [Option.mem_def] at hy; rw [hy, hxy.2])
    · intro x hx y hy hxy
      exact pl (by rw [Option.mem_def] at hx; rw [hx, hxy.1])

theorem slashClean_iff_data (s : String) : SlashClean s ↔ CleanChars s.data :=
  Iff.rfl

theorem slashClean_empty : SlashClean "" :=
  cleanChars_nil

theorem slashClean_join (a b : String) (ha : a ≠ "") (hb : b ≠ "") :
    SlashClean (a ++ "/" ++ b) ↔ SlashClean a ∧ SlashClean b := by
  have hd : (a ++ "/" ++ b).data = a.data ++ '/' :: b.data := by
    simp [String.data_append]
  have ha2 : a.data ≠ [] := fun h => ha (String.ext h)
  have hb2 : b.data ≠ [] := fun h => hb (String.ext h)
  rw [slashClean_iff_data, hd, cleanChars_join _ _ ha2 hb2]
  exact Iff.rfl

theorem ToResourceString_slashClean_iff (lower : Char → Char) (res : ObjectReference) :
    SlashClean (ToResourceString lower res) ↔
      SlashClean res.Namespace ∧ SlashClean (ToLower lower res.Kind) ∧
        SlashClean res.Name := by
  have he := slashClean_empty
  have hl := ToLower_eq_empty lower res.Kind
  have hle : ToLower lower "" = "" := rfl
  by_cases hn : res.Namespace = "" <;> by_cases hk : res.Kind = "" <;>
    by_cases hm : res.Name = "" <;>
    simp [ToResourceString, hn, hk, hm, hl, hle, he, slashClean_join,
      append_slash_eq_empty, and_assoc]

/-- C2 (as stated) fails: with an empty kind, so that no rune is ever
lower-cased, the namespace `/` alone gives the output `/`, which both starts and
ends with `/`, and the name `a//b` alone gives `a//b`, which contains `//`. -/
theorem ToResourceString_slash_counterexample :
    StartsWith (ToResourceString Char.toLower { Namespace := "/" }) "/" ∧
    EndsWith (ToResourceString Char.toLower { Namespace := "/" }) "/" ∧
    Contains (ToResourceString Char.toLower { Name := "a//b" }) "//" := by
  decide

/-- C2 (amended): for every rune mapping and every reference, the output of
`ToResourceString` has no leading `/`, no trailing `/` and no `//` exactly when
none of namespace, lowercase(kind) and name has a leading `/`, a trailing `/`
or a `//`. -/
theorem ToResourceString_slash_clean (lower : Char → Char) (res : ObjectReference) :
    (¬ StartsWith (ToResourceString lower res) "/" ∧
      ¬ EndsWith (ToResourceString lower res) "/" ∧
      ¬ Contains (ToResourceString lower res) "//") ↔
    (SlashClean res.Namespace ∧ SlashClean (ToLower lower res.Kind) ∧
      SlashClean res.Name) :=
  ToResourceString_slashClean_iff lower res

/-! ## Resource string formatting -/

/-- C1: for every rune mapping and every reference, `ToResourceString` returns
the non-empty entries of `[namespace, lowercase(kind), name]`, in order, joined
by a single `/`; and when the rune mapping sends `P`, `o`, `d` to `p`, `o`, `d`
the seven listed (namespace, kind, name) triples give `""`, `"ns1"`, `"pod"`,
`"foo"`, `"ns1/pod"`, `"pod/foo"` and `"ns1/pod/foo"`. -/
theorem ToResourceString_joins_nonempty (lower : Char → Char) :
    (∀ res : ObjectReference, ToResourceString lower res = joinNonEmpty lower res) ∧
    (lower 'P' = 'p' → lower 'o' = 'o' → lower 'd' = 'd' →
      ∀ res : ObjectReference,
        (res.Namespace = "" → res.Kind = "" → res.Name = "" →
          ToResourceString lower res = "") ∧
        (res.Namespace = "ns1" → res.Kind = "" → res.Name = "" →
          ToResourceString lower res = "ns1") ∧
        (res.Namespace = "" → res.Kind = "Pod" → res.Name = "" →
          ToResourceString lower res = "pod") ∧
        (res.Namespace = "" → res.Kind = "" → res.Name = "foo" →
          ToResourceString lower res = "foo") ∧
        (res.Namespace = "ns1" → res.Kind = "Pod" → res.Name = "" →
          ToResourceString lower res = "ns1/pod") ∧
        (res.Namespace = "" → res.Kind = "Pod" → res.Name = "foo" →
          ToResourceString lower res = "pod/foo") ∧
        (res.Namespace = "ns1" → res.Kind = "Pod" → res.Name = "foo" →
          ToResourceString lower res = "ns1/pod/foo")) := by
  refine ⟨ToResourceString_eq_join lower, ?_⟩
  intro hP ho hd res
  have hpod := ToLower_Pod lower hP ho hd
  refine ⟨?_, ?_, ?_, ?_, ?_, ?_, ?_⟩ <;> intro hn hk hm <;>
    rw [ToResourceString_fields lower res _ _ _ hn hk hm] <;>
    simp [ToResourceString, hpod]

/-- Witness for C1 at the ASCII rune mapping `Char.toLower` and the reference
`ns1`, `Pod`, `foo`. -/
theorem ToResourceString_joins_nonempty_witness :
    ToResourceString Char.toLower { Namespace := "ns1", Kind := "Pod", Name := "foo" }
        = joinNonEmpty Char.toLower { Namespace := "ns1", Kind := "Pod", Name := "foo" } ∧
    ToResourceString Char.toLower { Namespace := "ns1", Kind := "Pod", Name := "foo" }
        = "ns1/pod/foo" ∧
    ToResourceString Char.toLower { Kind := "Pod" } = "pod" :=
  ⟨(ToResourceString_joins_nonempty Char.toLower).1 _,
   ((ToResourceString_joins_nonempty Char.toLower).2 (by decide) (by decide) (by decide)
      { Namespace := "ns1", Kind := "Pod", Name := "foo" }).2.2.2.2.2.2 rfl rfl rfl,
   ((ToResourceString_joins_nonempty Char.toLower).2 (by decide) (by decide) (by decide)
      { Kind := "Pod" }).2.2.1 rfl rfl rfl⟩

/-! ## Resource resolution -/

theorem accessors_of_cons (lower : Char → Char) (r : ReportResult)
    (s : ObjectReference) (rest : List ObjectReference) (h : r.Subjects = s :: rest) :
    r.HasResource = true ∧ r.GetResource = some s ∧
      r.GetKind = Except.ok s.Kind ∧
      r.ResourceString lower = Except.ok (ToResourceString lower s) := by
  have h1 : r.HasResource = true := by simp [ReportResult.HasResource, h]
  have h2 : r.GetResource = some s := by simp [ReportResult.GetResource, h]
  refine ⟨h1, h2, ?_, ?_⟩
  · simp [ReportResult.GetKind, h1, h2]
  · simp [ReportResult.ResourceString, h1, h2]

theorem accessors_of_nil (lower : Char → Char) (r : ReportResult)
    (h : r.Subjects = []) :
    r.HasResource = false ∧ r.GetResource = none ∧
      r.GetKind = Except.ok "" ∧ r.ResourceString lower = Except.ok "" := by
  have h1 : r.HasResource = false := by simp [ReportResult.HasResource, h]
  have h2 : r.GetResource = none := by simp [ReportResult.GetResource, h]
  refine ⟨h1, h2, ?_, ?_⟩
  · simp [ReportResult.GetKind, h1]
  · simp [ReportResult.ResourceString, h1]

/-- C3: for every result with a non-empty subjects list, `HasResource` is true,
`GetResource` is the first subject, `GetKind` returns that subject's kind
unchanged and `ResourceString` returns `ToResourceString` of it; hence every
other result whose subjects list has the same first entry gives the same four
outputs, whatever its remaining subjects are. -/
theorem first_subject_is_authoritative (lower : Char → Char) (r : ReportResult)
    (h : r.Subjects ≠ []) :
    r.HasResource = true ∧
    r.GetResource = some (r.Subjects.head h) ∧
    r.GetKind = Except.ok (r.Subjects.head h).Kind ∧
    r.ResourceString lower = Except.ok (ToResourceString lower (r.Subjects.head h)) ∧
    (∀ r2 : ReportResult, r2.Subjects.head? = r.Subjects.head? →
      r2.HasResource = r.HasResource ∧ r2.GetResource = r.GetResource ∧
        r2.GetKind = r.GetKind ∧ r2.ResourceString lower = r.ResourceString lower) := by
  obtain ⟨s, rest, hs⟩ := List.exists_cons_of_ne_nil h
  have hr := accessors_of_cons lower r s rest hs
  have hhead : r.Subjects.head h = s := by simp [hs]
  rw [hhead]
  refine ⟨hr.1, hr.2.1, hr.2.2.1, hr.2.2.2, ?_⟩
  intro r2 h2
  cases hsub : r2.Subjects with
  | nil => simp [hsub, hs] at h2
  | cons s2 rest2 =>
    have heq : s2 = s := by simpa [hsub, hs] using h2
    subst heq
    have hr2 := accessors_of_cons lower r2 s2 rest2 hsub
    exact ⟨hr2.1.trans hr.1.symm, hr2.2.1.trans hr.2.1.symm,
      hr2.2.2.1.trans hr.2.2.1.symm, hr2.2.2.2.trans hr.2.2.2.symm⟩

/-- Witness for C3 at `sampleResult`, whose first subject is `ns1`, `Pod`,
`foo`. -/
theorem first_subject_is_authoritative_witness :
    sampleResult.Subjects ≠ [] ∧
    sampleResult.HasResource = true ∧
    sampleResult.GetResource = some { Namespace := "ns1", Kind := "Pod", Name := "foo" } ∧
    sampleResult.GetKind = Except.ok "Pod" ∧
    sampleResult.ResourceString Char.toLower = Except.ok "ns1/pod/foo" :=
  ⟨by decide,
   (first_subject_is_authoritative Char.toLower sampleResult (by decide)).1,
   (first_subject_is_authoritative Char.toLower sampleResult (by decide)).2.1,
   (first_subject_is_authoritative Char.toLower sampleResult (by decide)).2.2.1,
   (first_subject_is_authoritative Char.toLower sampleResult (by decide)).2.2.2.1⟩

/-- C4: for every result with an empty subjects list, `HasResource` is false,
`GetResource` is `nil`, and `GetKind` and `ResourceString` both return the
empty string as a value, without a panic. -/
theorem no_subject_is_absent (lower : Char → Char) (r : ReportResult)
    (h : r.Subjects = []) :
    r.HasResource = false ∧
    r.GetResource = none ∧
    r.GetKind = Except.ok "" ∧
    r.ResourceString lower = Except.ok "" :=
  accessors_of_nil lower r h

/-- Witness for C4 at `sampleScopeResult`, which has no subject. -/
theorem no_subject_is_absent_witness :
    sampleScopeResult.Subjects = [] ∧
    sampleScopeResult.HasResource = false ∧
    sampleScopeResult.GetResource = none ∧
    sampleScopeResult.GetKind = Except.ok "" ∧
    sampleScopeResult.ResourceString Char.toLower = Except.ok "" :=
  ⟨rfl, no_subject_is_absent Char.toLower sampleScopeResult rfl⟩

/-- C7: for every result, `GetKind` and `ResourceString` return a value and do
not panic; the pointer they dereference is reached only when `HasResource` is
true, and `HasResource` is true exactly when `GetResource` is not `nil`. -/
theorem GetKind_ResourceString_never_fail (lower : Char → Char) (r : ReportResult) :
    (∃ kind : String, r.GetKind = Except.ok kind) ∧
    (∃ str : String, r.ResourceString lower = Except.ok str) ∧
    (r.HasResource = true ↔ ∃ res : ObjectReference, r.GetResource = some res) ∧
    (r.HasResource = false ↔ r.GetResource = none) := by
  cases hsub : r.Subjects with
  | nil =>
    have hr := accessors_of_nil lower r hsub
    refine ⟨⟨_, hr.2.2.1⟩, ⟨_, hr.2.2.2⟩, ?_, ?_⟩
    · simp [hr.1, hr.2.1]
    · simp [hr.1, hr.2.1]
  | cons s rest =>
    have hr := accessors_of_cons lower r s rest hsub
    refine ⟨⟨_, hr.2.2.1⟩, ⟨_, hr.2.2.2⟩, ?_, ?_⟩
    · simp [hr.1, hr.2.1]
    · simp [hr.1, hr.2.1]

/-! ## Severity ranking -/

theorem mapIndex_SeverityLevel_of_not_key (s : String)
    (h : s ∉ mapKeys SeverityLevel) : mapIndex SeverityLevel s = 0 := by
  simp only [mapKeys, SeverityLevel, List.map, List.mem_cons, List.mem_singleton,
    List.not_mem_nil, or_false, not_or] at h
  obtain ⟨h0, h1, h2, h3, h4, h5⟩ := h
  have e0 : (s == "") = false := by simpa using h0
  have e1 : (s == SeverityInfo) = false := by simpa using h1
  have e2 : (s == SeverityLow) = false := by simpa using h2
  have e3 : (s == SeverityMedium) = false := by simpa using h3
  have e4 : (s == SeverityHigh) = false := by simpa using h4
  have e5 : (s == SeverityCritical) = false := by simpa using h5
  simp [mapIndex, SeverityLevel, List.lookup, e0, e1, e2, e3, e4, e5]

/-- C5: `SeverityLevel` has exactly the six keys `""`, info, low, medium, high,
critical, pairwise distinct, with ranks -1, 0, 1, 2, 3, 4; the ranks increase
strictly in that order, unset ranks strictly below every named severity, and
on the six keys equal ranks force equal keys, any two ranks are comparable, and
two keys that rank below each other are equal. -/
theorem SeverityLevel_ranking :
    mapKeys SeverityLevel =
      ["", SeverityInfo, SeverityLow, SeverityMedium, SeverityHigh, SeverityCritical] ∧
    (mapKeys SeverityLevel).Nodup ∧
    (mapKeys SeverityLevel).map (mapIndex SeverityLevel) = [-1, 0, 1, 2, 3, 4] ∧
    mapIndex SeverityLevel "" < mapIndex SeverityLevel SeverityInfo ∧
    mapIndex SeverityLevel SeverityInfo < mapIndex SeverityLevel SeverityLow ∧
    mapIndex SeverityLevel SeverityLow < mapIndex SeverityLevel SeverityMedium ∧
    mapIndex SeverityLevel SeverityMedium < mapIndex SeverityLevel SeverityHigh ∧
    mapIndex SeverityLevel SeverityHigh < mapIndex SeverityLevel SeverityCritical ∧
    (∀ x ∈ mapKeys SeverityLevel, x ≠ "" →
      mapIndex SeverityLevel "" < mapIndex SeverityLevel x) ∧
    (∀ x ∈ mapKeys SeverityLevel, ∀ y ∈ mapKeys SeverityLevel,
      mapIndex SeverityLevel x = mapIndex SeverityLevel y → x = y) ∧
    (∀ x ∈ mapKeys SeverityLevel, ∀ y ∈ mapKeys SeverityLevel,
      mapIndex SeverityLevel x ≤ mapIndex SeverityLevel y ∨
        mapIndex SeverityLevel y ≤ mapIndex SeverityLevel x) ∧
    (∀ x ∈ mapKeys SeverityLevel, ∀ y ∈ mapKeys SeverityLevel,
      mapIndex SeverityLevel x ≤ mapIndex SeverityLevel y →
        mapIndex SeverityLevel y ≤ mapIndex SeverityLevel x → x = y) := by
  refine ⟨by decide, by decide, by decide, by decide, by decide, by decide, by decide,
    by decide, by decide, by decide, by decide, by decide⟩

/-- C6: for every severity string that is not one of the six keys, the lookup
`SeverityLevel[s]` yields `0`, the rank of info: above unset, below low. -/
theorem SeverityLevel_unknown_is_zero (s : ResultSeverity)
    (h : s ∉ mapKeys SeverityLevel) :
    mapIndex SeverityLevel s = 0 ∧
    mapIndex SeverityLevel s = mapIndex SeverityLevel SeverityInfo ∧
    mapIndex SeverityLevel "" < mapIndex SeverityLevel s ∧
    mapIndex SeverityLevel s < mapIndex SeverityLevel SeverityLow := by
  rw [mapIndex_SeverityLevel_of_not_key s h]
  decide

/-- Witness for C6 at the unrecognised severity string `urgent`. -/
theorem SeverityLevel_unknown_is_zero_witness :
    "urgent" ∉ mapKeys SeverityLevel ∧
    mapIndex SeverityLevel "urgent" = 0 ∧
    mapIndex SeverityLevel "urgent" = mapIndex SeverityLevel SeverityInfo :=
  ⟨by decide,
   (SeverityLevel_unknown_is_zero "urgent" (by decide)).1,
   (SeverityLevel_unknown_is_zero "urgent" (by decide)).2.1⟩

/-! ## Case normalization -/

theorem Char_toLower_idem (c : Char) : c.toLower.toLower = c.toLower := by
  by_cases h : c.toNat ≥ 65 ∧ c.toNat ≤ 90
  · have hc : c = Char.ofNat c.toNat := (Char.ofNat_toNat c).symm
    generalize c.toNat = n at h hc
    subst hc
    obtain ⟨h1, h2⟩ := h
    interval_cases n <;> rfl
  · have hfix : c.toLower = c := by
      simp only [Char.toLower]
      exact if_neg h
    rw [hfix, hfix]

theorem ToLower_idem (lower : Char → Char) (hidem : ∀ c, lower (lower c) = lower c)
    (s : String) : ToLower lower (ToLower lower s) = ToLower lower s := by
  simp [ToLower, List.map_map, Function.comp_def, hidem]

theorem ToResourceString_congr_kind (lower : Char → Char) (res : ObjectReference)
    (kind : String) (h : ToLower lower kind = ToLower lower res.Kind) :
    ToResourceString lower { res with Kind := kind } = ToResourceString lower res := by
  have hempty : kind = "" ↔ res.Kind = "" := by
    rw [← ToLower_eq_empty lower kind, ← ToLower_eq_empty lower res.Kind, h]
  by_cases hk : res.Kind = ""
  · have hk2 : kind = "" := hempty.mpr hk
    simp [ToResourceString, hk, hk2]
  · have hk2 : ¬ kind = "" := fun e => hk (hempty.mp e)
    simp [ToResourceString, hk, hk2, h]

theorem ToLower_id (s : String) : ToLower (fun c => c) s = s := by
  cases s with
  | mk l => simp [ToLower]

theorem ToResourceString_closed_forms (lower : Char → Char) (res : ObjectReference) :
    (res.Namespace ≠ "" → res.Kind ≠ "" → res.Name ≠ "" →
      ToResourceString lower res =
        res.Namespace ++ "/" ++ ToLower lower res.Kind ++ "/" ++ res.Name) ∧
    (res.Namespace ≠ "" → res.Kind ≠ "" → res.Name = "" →
      ToResourceString lower res = res.Namespace ++ "/" ++ ToLower lower res.Kind) ∧
    (res.Namespace ≠ "" → res.Kind = "" → res.Name ≠ "" →
      ToResourceString lower res = res.Namespace ++ "/" ++ res.Name) ∧
    (res.Namespace = "" → res.Kind ≠ "" → res.Name ≠ "" →
      ToResourceString lower res = ToLower lower res.Kind ++ "/" ++ res.Name) ∧
    (res.Namespace = "" → res.Kind ≠ "" → res.Name = "" →
      ToResourceString lower res = ToLower lower res.Kind) := by
  have hl := ToLower_eq_empty lower res.Kind
  refine ⟨?_, ?_, ?_, ?_, ?_⟩ <;> intro hn hk hm <;>
    simp [ToResourceString, hn, hk, hm, hl, append_slash_eq_empty]

theorem ToResourceString_lower_only_kind (lower : Char → Char) (res : ObjectReference) :
    ToResourceString lower res =
      ToResourceString (fun c => c) { res with Kind := ToLower lower res.Kind } := by
  have hl := ToLower_eq_empty lower res.Kind
  by_cases hk : res.Kind = ""
  · have hle : ToLower lower "" = "" := rfl
    simp [ToResourceString, hk, hle]
  · simp [ToResourceString, hk, hl, ToLower_id]

/-- C8: kind is the only component `ToResourceString` case-normalizes. The
output depends on kind only through its lowercase form: two kinds with the same
lowercase form give the same output, and, the rune mapping being idempotent,
replacing kind by lowercase(kind) leaves the output unchanged. Namespace and
name are copied as they are in every reference: the output is the `/`-join of
the non-empty entries of `[namespace, lowercase(kind), name]`, it is what the
identity rune mapping gives once kind is replaced by lowercase(kind), and for
each pattern of empty components it is the listed concatenation of the
unchanged namespace, the lower-cased kind and the unchanged name; in
particular a reference with only a namespace returns that namespace and a
reference with only a name returns that name. -/
theorem kind_is_the_only_normalized_component (lower : Char → Char) :
    (∀ (res : ObjectReference) (kind : String),
      ToLower lower kind = ToLower lower res.Kind →
        ToResourceString lower { res with Kind := kind } = ToResourceString lower res) ∧
    ((∀ c : Char, lower (lower c) = lower c) →
      ∀ res : ObjectReference,
        ToResourceString lower { res with Kind := ToLower lower res.Kind }
          = ToResourceString lower res) ∧
    (∀ res : ObjectReference, res.Kind = "" → res.Name = "" →
      ToResourceString lower res = res.Namespace) ∧
    (∀ res : ObjectReference, res.Namespace = "" → res.Kind = "" →
      ToResourceString lower res = res.Name) ∧
    (∀ res : ObjectReference,
      ToResourceString lower res =
        String.intercalate "/"
          ([res.Namespace, ToLower lower res.Kind, res.Name].filter (fun s => s ≠ ""))) ∧
    (∀ res : ObjectReference,
      ToResourceString lower res =
        ToResourceString (fun c => c) { res with Kind := ToLower lower res.Kind }) ∧
    (∀ res : ObjectReference,
      (res.Namespace ≠ "" → res.Kind ≠ "" → res.Name ≠ "" →
        ToResourceString lower res =
          res.Namespace ++ "/" ++ ToLower lower res.Kind ++ "/" ++ res.Name) ∧
      (res.Namespace ≠ "" → res.Kind ≠ "" → res.Name = "" →
        ToResourceString lower res = res.Namespace ++ "/" ++ ToLower lower res.Kind) ∧
      (res.Namespace ≠ "" → res.Kind = "" → res.Name ≠ "" →
        ToResourceString lower res = res.Namespace ++ "/" ++ res.Name) ∧
      (res.Namespace = "" → res.Kind ≠ "" → res.Name ≠ "" →
        ToResourceString lower res = ToLower lower res.Kind ++ "/" ++ res.Name) ∧
      (res.Namespace = "" → res.Kind ≠ "" → res.Name = "" →
        ToResourceString lower res = ToLower lower res.Kind)) := by
  refine ⟨ToResourceString_congr_kind lower, ?_, ?_, ?_, ?_,
    ToResourceString_lower_only_kind lower, ToResourceString_closed_forms lower⟩
  · intro hidem res
    exact ToResourceString_congr_kind lower res _ (ToLower_idem lower hidem res.Kind)
  · intro res hk hm
    by_cases hn : res.Namespace = "" <;> simp [ToResourceString, hk, hm, hn]
  · intro res hn hk
    by_cases hm : res.Name = "" <;> simp [ToResourceString, hk, hm, hn]
  · intro res
    exact ToResourceString_eq_join lower res

/-- Witness for C8 at the ASCII rune mapping `Char.toLower`: the kinds `POD`
and `pod` give the same output, a namespace or name in upper case is returned
unchanged, alone or next to other components, and `NS1`, `Pod`, `Foo` gives
`NS1/pod/Foo`. -/
theorem kind_is_the_only_normalized_component_witness :
    ToResourceString Char.toLower { Namespace := "ns1", Kind := "pod", Name := "foo" }
      = ToResourceString Char.toLower { Namespace := "ns1", Kind := "POD", Name := "foo" } ∧
    ToResourceString Char.toLower { Namespace := "NS1" } = "NS1" ∧
    ToResourceString Char.toLower { Name := "Foo" } = "Foo" ∧
    ToResourceString Char.toLower { Namespace := "NS1", Kind := "Pod", Name := "Foo" }
      = "NS1/pod/Foo" ∧
    ToResourceString Char.toLower { Namespace := "NS1", Name := "Foo" } = "NS1/Foo" :=
  ⟨(kind_is_the_only_normalized_component Char.toLower).2.1 Char_toLower_idem
      { Namespace := "ns1", Kind := "POD", Name := "foo" },
   (kind_is_the_only_normalized_component Char.toLower).2.2.1 { Namespace := "NS1" } rfl rfl,
   (kind_is_the_only_normalized_component Char.toLower).2.2.2.1 { Name := "Foo" } rfl rfl,
   ((kind_is_the_only_normalized_component Char.toLower).2.2.2.2.2.2
      { Namespace := "NS1", Kind := "Pod", Name := "Foo" }).1
      (by decide) (by decide) (by decide),
   ((kind_is_the_only_normalized_component Char.toLower).2.2.2.2.2.2
      { Namespace := "NS1", Name := "Foo" }).2.2.1 (by decide) rfl (by decide)⟩

/-! ## Summary aggregation -/

theorem count_statuses_sum (l : List String) (h : ∀ s ∈ l, s ∈ statuses) :
    l.count StatusPass + l.count StatusFail + l.count StatusWarn +
      l.count StatusError + l.count StatusSkip = l.length := by
  induction l with
  | nil => rfl
  | cons a t ih =>
    have ht : ∀ s ∈ t, s ∈ statuses := fun s hs => h s (List.mem_cons_of_mem a hs)
    have ih2 := ih ht
    have ha : a ∈ statuses := h a (List.mem_cons_self a t)
    simp only [statuses, List.mem_cons, List.mem_singleton, List.not_mem_nil,
      or_false] at ha
    rcases ha with rfl | rfl | rfl | rfl | rfl <;>
      simp [List.count_cons, StatusPass, StatusFail, StatusWarn, StatusError,
        StatusSkip] at ih2 ⊢ <;> omega

theorem count_map_Result (results : List ReportResult) (status : Result) :
    (results.map (fun r => r.Result)).count status =
      (results.filter (fun r => decide (r.Result = status))).length := by
  induction results with
  | nil => rfl
  | cons a t ih =>
    by_cases h : a.Result = status <;> simp [List.count_cons, List.filter_cons, h, ih]

/-- C9 (as stated) fails: the source files declare no function from results
to a summary; the summary they hold for a list of results is the field
`Summary` stored in a `Report` next to `Results`. `inconsistentReport` is a
`Report` whose results have the statuses pass, fail, pass, skip while its
summary is all zero: the summary is not pass 2, fail 1, warn 0, error 0,
skip 1, its pass field is not the number of pass results, and its five fields
sum to 0, not to the 4 results. -/
theorem Report_summary_counterexample :
    (∀ r ∈ inconsistentReport.Results, r.Result ∈ statuses) ∧
    inconsistentReport.Results.map (fun r => r.Result)
      = [StatusPass, StatusFail, StatusPass, StatusSkip] ∧
    inconsistentReport.Summary ≠ { Pass := 2, Fail := 1, Warn := 0, Error := 0, Skip := 1 } ∧
    inconsistentReport.Summary.Pass ≠
      ((inconsistentReport.Results.filter
        (fun r => decide (r.Result = StatusPass))).length : Int) ∧
    inconsistentReport.Summary.Pass + inconsistentReport.Summary.Fail +
      inconsistentReport.Summary.Warn + inconsistentReport.Summary.Error +
      inconsistentReport.Summary.Skip ≠ (inconsistentReport.Results.length : Int) := by
  decide

/-- C9 (amended): a `Report` stores its summary next to its results and
nothing ties the two: for every list of results with statuses among pass,
fail, warn, error, skip and every `ReportSummary` there is a `Report` holding
exactly these results and this summary. What the results alone fix is their
five per-status counts, which sum to the number of results; results with the
statuses pass, fail, pass, skip have the counts 2, 1, 0, 0, 1. -/
theorem Report_summary_is_stored_not_computed (results : List ReportResult)
    (summary : ReportSummary) (h : ∀ r ∈ results, r.Result ∈ statuses) :
    (∃ report : Report, report.Results = results ∧ report.Summary = summary) ∧
    ((results.filter (fun r => decide (r.Result = StatusPass))).length +
      (results.filter (fun r => decide (r.Result = StatusFail))).length +
      (results.filter (fun r => decide (r.Result = StatusWarn))).length +
      (results.filter (fun r => decide (r.Result = StatusError))).length +
      (results.filter (fun r => decide (r.Result = StatusSkip))).length
        = results.length) ∧
    (results.map (fun r => r.Result) = [StatusPass, StatusFail, StatusPass, StatusSkip] →
      (results.filter (fun r => decide (r.Result = StatusPass))).length = 2 ∧
      (results.filter (fun r => decide (r.Result = StatusFail))).length = 1 ∧
      (results.filter (fun r => decide (r.Result = StatusWarn))).length = 0 ∧
      (results.filter (fun r => decide (r.Result = StatusError))).length = 0 ∧
      (results.filter (fun r => decide (r.Result = StatusSkip))).length = 1) := by
  have hl : ∀ s ∈ results.map (fun r => r.Result), s ∈ statuses := by
    intro s hs
    obtain ⟨r, hr, rfl⟩ := List.mem_map.mp hs
    exact h r hr
  have hsum := count_statuses_sum _ hl
  rw [List.length_map] at hsum
  simp only [count_map_Result] at hsum
  refine ⟨⟨{ Summary := summary, Results := results }, rfl, rfl⟩, hsum, ?_⟩
  intro hmap
  simp only [← count_map_Result, hmap]
  decide

/-- Witness for C9 (amended) at `sampleResults` and the all-zero summary. -/
theorem Report_summary_is_stored_not_computed_witness :
    (∀ r ∈ sampleResults, r.Result ∈ statuses) ∧
    (∃ report : Report, report.Results = sampleResults ∧
      report.Summary = { Pass := 0, Fail := 0, Warn := 0, Error := 0, Skip := 0 }) ∧
    (sampleResults.filter (fun r => decide (r.Result = StatusPass))).length = 2 :=
  ⟨by decide,
   (Report_summary_is_stored_not_computed sampleResults
      { Pass := 0, Fail := 0, Warn := 0, Error := 0, Skip := 0 } (by decide)).1,
   ((Report_summary_is_stored_not_computed sampleResults
      { Pass := 0, Fail := 0, Warn := 0, Error := 0, Skip := 0 } (by decide)).2.2 rfl).1⟩

/-- C10 (as stated) fails: `negativeSummary` is a `ReportSummary` value whose
pass count is -1, an integer that fits a Go `int`. -/
theorem ReportSummary_negative_counterexample :
    fitsGoInt negativeSummary.Pass ∧
    ¬ (0 ≤ negativeSummary.Pass ∧ 0 ≤ negativeSummary.Fail ∧ 0 ≤ negativeSummary.Warn ∧
        0 ≤ negativeSummary.Error ∧ 0 ≤ negativeSummary.Skip) := by
  decide

/-- C10 (amended): the five counts of a `ReportSummary` are signed integers
that default to zero, and the type excludes no sign: any five integers that
fit a Go `int`, negative ones included, are the pass, fail, warn, error and
skip counts of some `ReportSummary` value. -/
theorem ReportSummary_counts_are_signed (p f w e s : Int)
    (hp : fitsGoInt p) (hf : fitsGoInt f) (hw : fitsGoInt w) (he : fitsGoInt e)
    (hs : fitsGoInt s) :
    ({} : ReportSummary) = { Pass := 0, Fail := 0, Warn := 0, Error := 0, Skip := 0 } ∧
    ∃ x : ReportSummary,
      x.Pass = p ∧ x.Fail = f ∧ x.Warn = w ∧ x.Error = e ∧ x.Skip = s ∧
      fitsGoInt x.Pass ∧ fitsGoInt x.Fail ∧ fitsGoInt x.Warn ∧ fitsGoInt x.Error ∧
      fitsGoInt x.Skip :=
  ⟨rfl, { Pass := p, Fail := f, Warn := w, Error := e, Skip := s },
    rfl, rfl, rfl, rfl, rfl, hp, hf, hw, he, hs⟩

/-- Witness for C10 (amended) at the counts -1, 0, 0, 0, 0. -/
theorem ReportSummary_counts_are_signed_witness :
    fitsGoInt (-1) ∧ fitsGoInt 0 ∧
    ∃ x : ReportSummary, x.Pass = -1 ∧ x.Fail = 0 ∧ x.Warn = 0 ∧ x.Error = 0 ∧ x.Skip = 0 :=
  ⟨by decide, by decide,
   match (ReportSummary_counts_are_signed (-1) 0 0 0 0 (by decide) (by decide)
      (by decide) (by decide) (by decide)).2 with
   | ⟨x, h1, h2, h3, h4, h5, _⟩ => ⟨x, h1, h2, h3, h4, h5⟩⟩

/-! ## Splitting the resource string -/

theorem contains_slash_iff (s : String) : Contains s "/" ↔ '/' ∈ s.data := by
  show ['/'] <:+: s.data ↔ '/' ∈ s.data
  constructor
  · rintro ⟨a, b, h⟩
    rw [← h]
    simp
  · intro h
    obtain ⟨a, b, hab⟩ := List.append_of_mem h
    exact ⟨a, b, by rw [hab]; simp⟩

theorem ToLower_no_slash (lower : Char → Char) (hlower : ∀ c, lower c = '/' → c = '/')
    (s : String) (h : ¬ Contains s "/") : ¬ Contains (ToLower lower s) "/" := by
  rw [contains_slash_iff] at h ⊢
  intro hmem
  obtain ⟨c, hc, hcl⟩ := List.mem_map.mp hmem
  exact h (hlower c hcl ▸ hc)

theorem splitSlash_one (a : String) (ha : a ≠ "") (hs : ¬ Contains a "/") :
    splitSlash a = [a] := by
  rw [contains_slash_iff] at hs
  have h := List.splitOn_intercalate [a.data] '/' (by simpa using hs) (by simp)
  simp only [List.intercalate, List.intersperse, List.flatten, List.append_nil] at h
  simp [splitSlash, ha, h]

theorem splitSlash_two (a b : String) (hsa : ¬ Contains a "/") (hsb : ¬ Contains b "/") :
    splitSlash (a ++ "/" ++ b) = [a, b] := by
  rw [contains_slash_iff] at hsa hsb
  have h := List.splitOn_intercalate [a.data, b.data] '/'
    (by simpa using ⟨hsa, hsb⟩) (by simp)
  have hd : (a ++ "/" ++ b).data = [ '/' ].intercalate [a.data, b.data] := by
    simp [List.intercalate, List.intersperse, List.flatten, String.data_append]
  simp [splitSlash, append_slash_eq_empty, hd, h]

theorem splitSlash_three (a b c : String) (hsa : ¬ Contains a "/")
    (hsb : ¬ Contains b "/") (hsc : ¬ Contains c "/") :
    splitSlash (a ++ "/" ++ b ++ "/" ++ c) = [a, b, c] := by
  rw [contains_slash_iff] at hsa hsb hsc
  have h := List.splitOn_intercalate [a.data, b.data, c.data] '/'
    (by simpa using ⟨hsa, hsb, hsc⟩) (by simp)
  have hd : (a ++ "/" ++ b ++ "/" ++ c).data = [ '/' ].intercalate [a.data, b.data, c.data] := by
    simp [List.intercalate, List.intersperse, List.flatten, String.data_append]
  simp [splitSlash, append_slash_eq_empty, hd, h]

theorem countSlash_of_no_slash (a : String) (hs : ¬ Contains a "/") : countSlash a = 0 := by
  rw [contains_slash_iff] at hs
  exact List.count_eq_zero.mpr hs

theorem countSlash_join (a b : String) :
    countSlash (a ++ "/" ++ b) = countSlash a + 1 + countSlash b := by
  simp [countSlash, String.data_append, List.count_append, List.count_cons]
  omega

theorem slashClean_of_no_slash (a : String) (hs : ¬ Contains a "/") : SlashClean a := by
  rw [contains_slash_iff] at hs
  refine ⟨?_, ?_, ?_⟩
  · rintro ⟨t, ht⟩
    exact hs (by rw [← ht]; simp)
  · rintro ⟨t, ht⟩
    exact hs (by rw [← ht]; simp)
  · rintro ⟨t, u, ht⟩
    exact hs (by rw [← ht]; simp)

theorem Char_toLower_slash (c : Char) (h : c.toLower = '/') : c = '/' := by
  by_cases hr : c.toNat ≥ 65 ∧ c.toNat ≤ 90
  · have hc : c = Char.ofNat c.toNat := (Char.ofNat_toNat c).symm
    generalize c.toNat = n at hr hc
    subst hc
    obtain ⟨h1, h2⟩ := hr
    interval_cases n <;> exact absurd h (by decide)
  · have hfix : c.toLower = c := by
      simp only [Char.toLower]
      exact if_neg hr
    rw [← hfix]
    exact h

/-- C11: for every reference whose namespace, kind and name contain no `/`
(the rune mapping sending no other code point to `/`), splitting the output of
`ToResourceString` on `/` gives exactly the non-empty entries of
`[namespace, lowercase(kind), name]` in order, the empty list for the empty
output; hence the output has no leading, trailing or doubled `/`, and when
some component is non-empty its number of `/` is the number of non-empty
components minus one. -/
theorem ToResourceString_split_components (lower : Char → Char)
    (hlower : ∀ c : Char, lower c = '/' → c = '/') (res : ObjectReference)
    (hn : ¬ Contains res.Namespace "/") (hk : ¬ Contains res.Kind "/")
    (hm : ¬ Contains res.Name "/") :
    splitSlash (ToResourceString lower res) = nonEmptyComponents lower res ∧
    (ToResourceString lower res = "" → splitSlash (ToResourceString lower res) = []) ∧
    ¬ StartsWith (ToResourceString lower res) "/" ∧
    ¬ EndsWith (ToResourceString lower res) "/" ∧
    ¬ Contains (ToResourceString lower res) "//" ∧
    (nonEmptyComponents lower res ≠ [] →
      countSlash (ToResourceString lower res) + 1 = (nonEmptyComponents lower res).length) := by
  have hk2 := ToLower_no_slash lower hlower res.Kind hk
  have hl := ToLower_eq_empty lower res.Kind
  have hle : ToLower lower "" = "" := rfl
  have hclean : SlashClean (ToResourceString lower res) :=
    (ToResourceString_slashClean_iff lower res).mpr
      ⟨slashClean_of_no_slash _ hn, slashClean_of_no_slash _ hk2,
        slashClean_of_no_slash _ hm⟩
  have hempty : splitSlash "" = [] := rfl
  have c0 : countSlash "" = 0 := rfl
  have cn := countSlash_of_no_slash _ hn
  have ck := countSlash_of_no_slash _ hk2
  have cm := countSlash_of_no_slash _ hm
  refine ⟨?_, ?_, hclean.1, hclean.2.1, hclean.2.2, ?_⟩
  · by_cases en : res.Namespace = "" <;> by_cases ek : res.Kind = "" <;>
      by_cases em : res.Name = "" <;>
      simp [ToResourceString, nonEmptyComponents, en, ek, em, hl, hle, hempty,
        append_slash_eq_empty, splitSlash_one, splitSlash_two, splitSlash_three,
        hn, hk2, hm]
  · intro h
    rw [h]
    rfl
  · by_cases en : res.Namespace = "" <;> by_cases ek : res.Kind = "" <;>
      by_cases em : res.Name = "" <;>
      simp [ToResourceString, nonEmptyComponents, en, ek, em, hl, hle, c0,
        append_slash_eq_empty, countSlash_join, cn, ck, cm]

/-- Witness for C11 at the ASCII rune mapping `Char.toLower` and the reference
`ns1`, `Pod`, `foo`. -/
theorem ToResourceString_split_components_witness :
    ¬ Contains "ns1" "/" ∧ ¬ Contains "Pod" "/" ∧ ¬ Contains "foo" "/" ∧
    splitSlash (ToResourceString Char.toLower { Namespace := "ns1", Kind := "Pod", Name := "foo" })
      = ["ns1", "pod", "foo"] ∧
    countSlash (ToResourceString Char.toLower { Namespace := "ns1", Kind := "Pod", Name := "foo" })
      + 1 = 3 :=
  ⟨by decide, by decide, by decide,
   (ToResourceString_split_components Char.toLower Char_toLower_slash
      { Namespace := "ns1", Kind := "Pod", Name := "foo" }
      (by decide) (by decide) (by decide)).1,
   (ToResourceString_split_components Char.toLower Char_toLower_slash
      { Namespace := "ns1", Kind := "Pod", Name := "foo" }
      (by decide) (by decide) (by decide)).2.2.2.2.2 (by decide)⟩

/-! ## Empty output and identification -/

theorem ToResourceString_eq_empty (lower : Char → Char) (res : ObjectReference) :
    ToResourceString lower res = "" ↔
      res.Namespace = "" ∧ res.Kind = "" ∧ res.Name = "" := by
  have hl := ToLower_eq_empty lower res.Kind
  by_cases en : res.Namespace = "" <;> by_cases ek : res.Kind = "" <;>
    by_cases em : res.Name = "" <;>
    simp [ToResourceString, en, ek, em, hl, append_slash_eq_empty]

/-- C12: for every rune mapping and every reference, `ToResourceString`
returns the empty string if and only if namespace, kind and name are all
empty. -/
theorem ToResourceString_empty_iff_all_empty (lower : Char → Char)
    (res : ObjectReference) :
    ToResourceString lower res = "" ↔
      (res.Namespace = "" ∧ res.Kind = "" ∧ res.Name = "") :=
  ToResourceString_eq_empty lower res

/-- C13: `ToResourceString` is not injective on (namespace, kind, name), even
with a lowercase kind and no `/` in any component: the namespace `a` alone and
the name `a` alone both give `a`; when the rune mapping fixes `b`, the
references `a`, `b`, empty and `a`, empty, `b` both give `a/b`; so equal
outputs do not force equal fields. -/
theorem ToResourceString_not_injective (lower : Char → Char) :
    (ToResourceString lower { Namespace := "a" } = "a" ∧
      ToResourceString lower { Name := "a" } = "a" ∧
      ({ Namespace := "a" } : ObjectReference) ≠ { Name := "a" }) ∧
    (lower 'b' = 'b' →
      ToResourceString lower { Namespace := "a", Kind := "b" } = "a/b" ∧
      ToResourceString lower { Namespace := "a", Name := "b" } = "a/b" ∧
      ({ Namespace := "a", Kind := "b" } : ObjectReference) ≠ { Namespace := "a", Name := "b" }) ∧
    ¬ (∀ r1 r2 : ObjectReference,
        ¬ Contains r1.Namespace "/" → ¬ Contains r1.Kind "/" → ¬ Contains r1.Name "/" →
        ¬ Contains r2.Namespace "/" → ¬ Contains r2.Kind "/" → ¬ Contains r2.Name "/" →
        ToLower lower r1.Kind = r1.Kind → ToLower lower r2.Kind = r2.Kind →
        ToResourceString lower r1 = ToResourceString lower r2 →
          r1.Namespace = r2.Namespace ∧ r1.Kind = r2.Kind ∧ r1.Name = r2.Name) := by
  have h1 : ToResourceString lower { Namespace := "a" } = "a" := by
    simp [ToResourceString]
  have h2 : ToResourceString lower { Name := "a" } = "a" := by
    simp [ToResourceString]
  refine ⟨⟨h1, h2, by decide⟩, ?_, ?_⟩
  · intro hb
    have hB : ToLower lower "b" = "b" := by
      show String.mk (List.map lower ['b']) = String.mk ['b']
      simp [hb]
    refine ⟨?_, ?_, by decide⟩
    · simp [ToResourceString, hB]
    · simp [ToResourceString]
  · intro hall
    have h := hall { Namespace := "a" } { Name := "a" } (by decide) (by decide)
      (by decide) (by decide) (by decide) (by decide) rfl rfl (h1.trans h2.symm)
    exact absurd h.1 (by decide)

/-- Witness for C13 at the ASCII rune mapping `Char.toLower`. -/
theorem ToResourceString_not_injective_witness :
    ToResourceString Char.toLower { Namespace := "a", Kind := "b" } = "a/b" ∧
    ToResourceString Char.toLower { Namespace := "a", Name := "b" } = "a/b" ∧
    ({ Namespace := "a", Kind := "b" } : ObjectReference) ≠ { Namespace := "a", Name := "b" } :=
  (ToResourceString_not_injective Char.toLower).2.1 (by decide)

/-- C14: an empty `GetKind` or `ResourceString` does not show that no resource
is resolved: every result whose first subject has an empty namespace, kind and
name has `HasResource` true while `GetKind` and `ResourceString` return the
empty string, as they do for a result without subjects (`sampleBlankResult`
and `sampleScopeResult` are such a pair); conversely a non-empty
`ResourceString` is returned only when `HasResource` is true. -/
theorem empty_outputs_do_not_mean_unresolved (lower : Char → Char) :
    (∀ (r : ReportResult) (h : r.Subjects ≠ []),
      (r.Subjects.head h).Namespace = "" → (r.Subjects.head h).Kind = "" →
      (r.Subjects.head h).Name = "" →
        r.HasResource = true ∧ r.GetKind = Except.ok "" ∧
          r.ResourceString lower = Except.ok "") ∧
    (sampleBlankResult.HasResource = true ∧ sampleScopeResult.HasResource = false ∧
      sampleBlankResult.GetKind = sampleScopeResult.GetKind ∧
      sampleBlankResult.GetKind = Except.ok "" ∧
      sampleBlankResult.ResourceString lower = sampleScopeResult.ResourceString lower ∧
      sampleBlankResult.ResourceString lower = Except.ok "") ∧
    (∀ (r : ReportResult) (str : String),
      r.ResourceString lower = Except.ok str → str ≠ "" → r.HasResource = true) := by
  refine ⟨?_, ?_, ?_⟩
  · intro r h en ek em
    obtain ⟨s, rest, hs⟩ := List.exists_cons_of_ne_nil h
    have hr := accessors_of_cons lower r s rest hs
    have hhead : r.Subjects.head h = s := by simp [hs]
    rw [hhead] at en ek em
    refine ⟨hr.1, ?_, ?_⟩
    · rw [hr.2.2.1, ek]
    · rw [hr.2.2.2, (ToResourceString_eq_empty lower s).mpr ⟨en, ek, em⟩]
  · have hb := accessors_of_cons lower sampleBlankResult {} [] rfl
    have hn := accessors_of_nil lower sampleScopeResult rfl
    have he : ToResourceString lower {} = "" :=
      (ToResourceString_eq_empty lower {}).mpr ⟨rfl, rfl, rfl⟩
    rw [he] at hb
    exact ⟨hb.1, hn.1, hb.2.2.1.trans hn.2.2.1.symm, hb.2.2.1,
      hb.2.2.2.trans hn.2.2.2.symm, hb.2.2.2⟩
  · intro r str hstr hne
    cases hsub : r.Subjects with
    | nil =>
      have hn := accessors_of_nil lower r hsub
      rw [hn.2.2.2] at hstr
      exact absurd (Except.ok.inj hstr).symm hne
    | cons s rest => exact (accessors_of_cons lower r s rest hsub).1

/-- Witness for C14 at `sampleBlankResult` and the ASCII rune mapping
`Char.toLower`. -/
theorem empty_outputs_do_not_mean_unresolved_witness :
    sampleBlankResult.Subjects ≠ [] ∧
    sampleBlankResult.HasResource = true ∧
    sampleBlankResult.GetKind = Except.ok "" ∧
    sampleBlankResult.ResourceString Char.toLower = Except.ok "" ∧
    sampleResult.HasResource = true :=
  ⟨by decide,
   ((empty_outputs_do_not_mean_unresolved Char.toLower).1 sampleBlankResult (by decide)
      rfl rfl rfl).1,
   ((empty_outputs_do_not_mean_unresolved Char.toLower).1 sampleBlankResult (by decide)
      rfl rfl rfl).2.1,
   ((empty_outputs_do_not_mean_unresolved Char.toLower).1 sampleBlankResult (by decide)
      rfl rfl rfl).2.2,
   (empty_outputs_do_not_mean_unresolved Char.toLower).2.2 sampleResult "ns1/pod/foo"
      rfl (by decide)⟩

end OpenReports
